import Mathlib

/-!
# Verification of the mcp-app-builder core

Shallow embedding of the schema-validation, type-generation and
test-derivation core of the `mcp-app-builder` VS Code extension:

* `src/commands/index.ts` — `SchemaValidator.validateConfig` /
  `SchemaValidator.validateTools` (JSON parse step and zod structural
  validation are external libraries, modelled as an `Except` input and an
  abstract `ZodResult`);
* `src/testing/testHarness.ts` — `TestRunner` (`runTests`, `runTest`,
  `validateOutput`) and `TestGenerator` (`generateFromTools`,
  `generateSampleInput`, `generateRequiredOnlyInput`, `generateSampleValue`);
* `src/extension.ts` (TypeGenerator part, `src/codegen`) —
  `generateToolTypes`, `paramToTsType`, `toPascalCase`;
* `src/mcp/types.ts` — the shared data model (`MCPToolParameter`,
  `MCPToolDefinition`, `MCPToolResult`, `MCPContent`).

JavaScript values of type `unknown` coming from `JSON.parse` are modelled by
the inductive `Json`; `Record<string, unknown>` objects are association lists
in key-insertion order, with JS assignment semantics given by `recInsert`.
-/

/-- A parsed JSON value (the image of `JSON.parse`): JS `unknown` data.
Object fields are kept in insertion order, as JS does. -/
inductive Json where
  | null : Json
  | bool (b : Bool) : Json
  | num (n : Int) : Json
  | str (s : String) : Json
  | arr (elems : List Json) : Json
  | obj (fields : List (String × Json)) : Json

/-- JS object property assignment `r[k] = v`: if the key is present its value
is updated in place (key order preserved), otherwise the key is appended. -/
def recInsert (r : List (String × Json)) (k : String) (v : Json) :
    List (String × Json) :=
  if r.any (fun p => p.1 == k) then
    r.map (fun p => if p.1 == k then (k, v) else p)
  else
    r ++ [(k, v)]

/-- Structure `MCPToolParameter` of `src/mcp/types.ts` (the same shape is re-declared as
`ToolParameter` in the codegen module and as the zod `ParameterSchema` in the
validator; all consumers read only the fields below).  `type` is kept as a
raw string because the harness and codegen receive it from unvalidated
`JSON.parse` output and switch on it with a default branch.  `required` is
`required?: boolean`, read only for truthiness, so it is collapsed to `Bool`;
`enum?: string[]` is read only under a non-emptiness guard, so absence and
`[]` coincide and it is a plain list.  The unread `validation` facet of the
zod schema is omitted. -/
inductive MCPToolParameter where
  | mk (name : String) (type : String) (description : String)
      (required : Bool) (default : Option Json) («enum» : List String)
      (items : Option MCPToolParameter)
      (properties : Option (List (String × MCPToolParameter))) :
      MCPToolParameter

def MCPToolParameter.name : MCPToolParameter → String
  | .mk n _ _ _ _ _ _ _ => n

def MCPToolParameter.type : MCPToolParameter → String
  | .mk _ t _ _ _ _ _ _ => t

def MCPToolParameter.description : MCPToolParameter → String
  | .mk _ _ d _ _ _ _ _ => d

def MCPToolParameter.required : MCPToolParameter → Bool
  | .mk _ _ _ r _ _ _ _ => r

def MCPToolParameter.default : MCPToolParameter → Option Json
  | .mk _ _ _ _ d _ _ _ => d

def MCPToolParameter.enum : MCPToolParameter → List String
  | .mk _ _ _ _ _ e _ _ => e

def MCPToolParameter.items : MCPToolParameter → Option MCPToolParameter
  | .mk _ _ _ _ _ _ i _ => i

def MCPToolParameter.properties :
    MCPToolParameter → Option (List (String × MCPToolParameter))
  | .mk _ _ _ _ _ _ _ p => p

/-- A tool example (`MCPToolDefinition.examples` entries). -/
structure MCPToolExample where
  input : List (String × Json)
  output : Option Json
  description : Option String

/-- The `returns` field of a tool definition. -/
structure MCPToolReturns where
  type : String
  description : String

/-- Structure `MCPToolDefinition` of `src/mcp/types.ts` (the codegen `ToolDefinition` and
the zod `ToolSchema` declare the same shape; the unread `ui` config is
omitted). -/
structure MCPToolDefinition where
  name : String
  description : String
  parameters : List MCPToolParameter
  returns : Option MCPToolReturns
  examples : Option (List MCPToolExample)

/-- A tool-collection document (`ToolsFileSchema` / `ToolsFile`). -/
structure ToolsFile where
  schemaRef : Option String
  tools : List MCPToolDefinition

-- ============================================================================
-- Schema validator (src/validation, re-exported through src/commands)
-- ============================================================================

/-- One entry of `errors` / `warnings` (`ValidationError` in the source; the
optional `line`/`column` fields are only filled by the host-editor adapter
`createDiagnostics`, never by the validator itself, and are omitted). -/
structure ValidationError where
  path : String
  message : String
deriving Repr, DecidableEq

/-- Structure `ValidationResult` in the source. -/
structure ValidationResult where
  valid : Bool
  errors : List ValidationError
  warnings : List ValidationError
deriving Repr, DecidableEq

/-- One issue of a failed zod `safeParse` (`issue.path` is a list of keys
that the validator joins with `"."`). -/
structure ZodIssue where
  path : List String
  message : String

/-- Outcome of `Schema.safeParse` (the zod library is external; its result
is modelled abstractly). -/
inductive ZodResult (α : Type) where
  | success (data : α) : ZodResult α
  | failure (issues : List ZodIssue) : ZodResult α

/-- The parse pipeline feeding `validateConfig` / `validateTools`:
`JSON.parse` either throws (`.error` with the exception message) or yields a
value which `safeParse` then accepts or rejects.  Both library steps are
external to the repository, so the validator is modelled as a function of
this combined outcome. -/
abbrev ParsedInput (α : Type) := Except String (ZodResult α)

/-- A server-config document as produced by a successful `ConfigSchema`
parse.  `validateConfig` never reads its fields, so they are carried only
for shape. -/
structure MCPServerConfigDoc where
  name : String
  version : String
  description : Option String
  author : Option String
  license : Option String
  repository : Option String

/-- Embeds `SchemaValidator.validateConfig` (src/commands/index.ts, validator
module): parse failure → single path-less error; zod failure → one error per
issue with dotted path; success → no semantic pass. -/
def validateConfig (parsed : ParsedInput MCPServerConfigDoc) :
    ValidationResult :=
  match parsed with
  | .error msg =>
      { valid := false, errors := [{ path := "", message := msg }],
        warnings := [] }
  | .ok (.failure issues) =>
      { valid := false,
        errors := issues.map (fun i =>
          { path := String.intercalate "." i.path, message := i.message }),
        warnings := [] }
  | .ok (.success _) => { valid := true, errors := [], warnings := [] }

/-- Body of the per-parameter loop of `validateTools`: push a warning for
every `required` parameter that also carries a `default`. -/
def checkParam (toolName : String) (warnings : List ValidationError)
    (param : MCPToolParameter) : List ValidationError :=
  if param.required && param.default.isSome then
    warnings ++ [{ path := "tools." ++ toolName ++ ".parameters." ++ param.name,
                   message := "Required parameter has a default value" }]
  else
    warnings

/-- Body of the per-tool loop of `validateTools`.  The state is the
accumulating `ValidationResult` together with the `toolNames` set (a set is
only queried for membership, so it is modelled as the list of names seen so
far). -/
def checkTool (st : ValidationResult × List String)
    (tool : MCPToolDefinition) : ValidationResult × List String :=
  let (result, seen) := st
  let result :=
    if seen.contains tool.name then
      { result with
        valid := false,
        errors := result.errors ++
          [{ path := "tools." ++ tool.name,
             message := "Duplicate tool name: " ++ tool.name }] }
    else result
  let seen := tool.name :: seen
  let result :=
    { result with
      warnings := tool.parameters.foldl (checkParam tool.name) result.warnings }
  (result, seen)

/-- Embeds `SchemaValidator.validateTools` (src/commands/index.ts, validator
module): parse failure → single path-less error; zod failure → one error per
issue; success → the semantic pass over the tools (duplicate-name errors and
required-with-default warnings). -/
def validateTools (parsed : ParsedInput ToolsFile) : ValidationResult :=
  match parsed with
  | .error msg =>
      { valid := false, errors := [{ path := "", message := msg }],
        warnings := [] }
  | .ok (.failure issues) =>
      { valid := false,
        errors := issues.map (fun i =>
          { path := String.intercalate "." i.path, message := i.message }),
        warnings := [] }
  | .ok (.success toolsFile) =>
      (toolsFile.tools.foldl checkTool
        ({ valid := true, errors := [], warnings := [] }, [])).1

-- ----------------------------------------------------------------------------
-- Spec-side characterizations of the semantic pass
-- ----------------------------------------------------------------------------

/-- Following the words of the spec: "every duplicate after the first is reported
as an error at `tools.<name>`" — the expected duplicate errors, one per tool
whose name already occurred strictly earlier in the collection. -/
def specDupErrors (tools : List MCPToolDefinition) : List ValidationError :=
  (List.range tools.length).flatMap (fun i =>
    match tools[i]? with
    | some t =>
        if (tools.take i).any (fun t' => t'.name == t.name) then
          [{ path := "tools." ++ t.name,
             message := "Duplicate tool name: " ++ t.name }]
        else []
    | none => [])

/-- Following the words of the spec: "for every parameter flagged `required=true`
that also carries a `default`, emit a warning ... at
`tools.<tool>.parameters.<param>`". -/
def specWarnings (tools : List MCPToolDefinition) : List ValidationError :=
  tools.flatMap (fun t =>
    t.parameters.filterMap (fun p =>
      if p.required && p.default.isSome then
        some { path := "tools." ++ t.name ++ ".parameters." ++ p.name,
               message := "Required parameter has a default value" }
      else none))

/-- Duplicate errors produced by the semantic pass, relative to a set of
already-seen names (recursion companion of the `toolNames` set). -/
def dupErrorsAux : List MCPToolDefinition → List String → List ValidationError
  | [], _ => []
  | t :: rest, seen =>
      (if seen.contains t.name then
        [{ path := "tools." ++ t.name,
           message := "Duplicate tool name: " ++ t.name }]
       else [])
      ++ dupErrorsAux rest (t.name :: seen)

/-- Holds (`true`) iff no tool name repeats, relative to already-seen names. -/
def noDupAux : List MCPToolDefinition → List String → Bool
  | [], _ => true
  | t :: rest, seen => !seen.contains t.name && noDupAux rest (t.name :: seen)

theorem foldl_checkParam (toolName : String) (params : List MCPToolParameter) :
    ∀ ws : List ValidationError,
      params.foldl (checkParam toolName) ws =
        ws ++ params.filterMap (fun p =>
          if p.required && p.default.isSome then
            some { path := "tools." ++ toolName ++ ".parameters." ++ p.name,
                   message := "Required parameter has a default value" }
          else none) := by
  induction params with
  | nil => intro ws; simp
  | cons p rest ih =>
      intro ws
      simp only [List.foldl_cons, List.filterMap_cons]
      by_cases h : p.required && p.default.isSome
      · rw [ih]
        simp [checkParam, h]
      · rw [ih]
        simp [checkParam, h]

theorem specWarnings_cons (t : MCPToolDefinition)
    (rest : List MCPToolDefinition) :
    specWarnings (t :: rest) =
      t.parameters.filterMap (fun p =>
        if p.required && p.default.isSome then
          some { path := "tools." ++ t.name ++ ".parameters." ++ p.name,
                 message := "Required parameter has a default value" }
        else none) ++ specWarnings rest := by
  simp [specWarnings]

theorem foldl_checkTool (tools : List MCPToolDefinition) :
    ∀ (r : ValidationResult) (seen : List String),
      (tools.foldl checkTool (r, seen)).1 =
        { valid := r.valid && noDupAux tools seen,
          errors := r.errors ++ dupErrorsAux tools seen,
          warnings := r.warnings ++ specWarnings tools } := by
  induction tools with
  | nil => intro r seen; simp [noDupAux, dupErrorsAux, specWarnings]
  | cons t rest ih =>
      intro r seen
      simp only [List.foldl_cons]
      by_cases h : t.name ∈ seen
      · rw [show checkTool (r, seen) t =
            ({ valid := false,
               errors := r.errors ++
                 [{ path := "tools." ++ t.name,
                    message := "Duplicate tool name: " ++ t.name }],
               warnings := t.parameters.foldl (checkParam t.name) r.warnings },
             t.name :: seen) by simp [checkTool, h]]
        rw [ih]
        simp [noDupAux, dupErrorsAux, specWarnings_cons, h,
          foldl_checkParam]
      · rw [show checkTool (r, seen) t =
            ({ valid := r.valid,
               errors := r.errors,
               warnings := t.parameters.foldl (checkParam t.name) r.warnings },
             t.name :: seen) by simp [checkTool, h]]
        rw [ih]
        simp [noDupAux, dupErrorsAux, specWarnings_cons, h,
          foldl_checkParam]

theorem string_append_right_inj (s : String) {a b : String} :
    s ++ a = s ++ b ↔ a = b := by
  constructor
  · intro h
    have hd := congrArg String.data h
    simp only [String.data_append] at hd
    exact String.ext (List.append_cancel_left hd)
  · intro h; rw [h]

theorem dupErrorsAux_count (n : String) :
    ∀ (tools : List MCPToolDefinition) (seen : List String),
      ((dupErrorsAux tools seen).filter
          (fun e => e.path == "tools." ++ n)).length =
        if n ∈ seen then
          (tools.filter (fun t => t.name == n)).length
        else
          (tools.filter (fun t => t.name == n)).length - 1 := by
  intro tools
  induction tools with
  | nil => intro seen; simp [dupErrorsAux]
  | cons t rest ih =>
      intro seen
      by_cases hn : t.name = n
      · subst hn
        by_cases hs : t.name ∈ seen
        · simp [dupErrorsAux, hs, ih, List.mem_cons]
        · simp [dupErrorsAux, hs, ih, List.mem_cons]
      · have hpath : ("tools." ++ t.name == "tools." ++ n) = false := by
          simp [string_append_right_inj, hn]
        by_cases hs : t.name ∈ seen
        · by_cases hns : n ∈ seen
          · simp [dupErrorsAux, hs, hns, ih, List.mem_cons, hpath, hn,
              Ne.symm hn]
          · simp [dupErrorsAux, hs, hns, ih, List.mem_cons, hpath, hn,
              Ne.symm hn]
        · by_cases hns : n ∈ seen
          · simp [dupErrorsAux, hs, hns, ih, List.mem_cons, hpath, hn,
              Ne.symm hn]
          · simp [dupErrorsAux, hs, hns, ih, List.mem_cons, hpath, hn,
              Ne.symm hn]

theorem noDupAux_eq_true_iff :
    ∀ (tools : List MCPToolDefinition) (seen : List String),
      noDupAux tools seen = true ↔
        ((tools.map MCPToolDefinition.name).Nodup ∧
          ∀ x ∈ seen, x ∉ tools.map MCPToolDefinition.name) := by
  intro tools
  induction tools with
  | nil => intro seen; simp [noDupAux]
  | cons t rest ih =>
      intro seen
      simp only [noDupAux, Bool.and_eq_true, Bool.not_eq_true', ih,
        List.map_cons, List.nodup_cons]
      constructor
      · rintro ⟨hmem, hnd, hall⟩
        have hmem' : t.name ∉ seen := by
          simpa using hmem
        refine ⟨⟨?_, hnd⟩, ?_⟩
        · exact (hall t.name (List.mem_cons_self _ _))
        · intro x hx
          simp only [List.mem_cons, not_or]
          exact ⟨fun hxe => hmem' (hxe ▸ hx), hall x (List.mem_cons_of_mem _ hx)⟩
      · rintro ⟨⟨htn, hnd⟩, hall⟩
        refine ⟨?_, hnd, ?_⟩
        · have hns : t.name ∉ seen := fun hm =>
            (hall t.name hm) (List.mem_cons_self _ _)
          simpa using hns
        · intro x hx
          rcases List.mem_cons.mp hx with h | h
          · exact h ▸ htn
          · exact fun hm => ((hall x h) (by simp [hm])).elim

theorem noDupAux_eq_isEmpty :
    ∀ (tools : List MCPToolDefinition) (seen : List String),
      noDupAux tools seen = (dupErrorsAux tools seen).isEmpty := by
  intro tools
  induction tools with
  | nil => intro seen; simp [noDupAux, dupErrorsAux]
  | cons t rest ih =>
      intro seen
      by_cases h : t.name ∈ seen <;>
        simp [noDupAux, dupErrorsAux, h, ih]

theorem validateTools_success_eq (tf : ToolsFile) :
    validateTools (.ok (.success tf)) =
      { valid := noDupAux tf.tools [],
        errors := dupErrorsAux tf.tools [],
        warnings := specWarnings tf.tools } := by
  simp [validateTools, foldl_checkTool]

/-- C1: On a structurally valid tool-collection document the validator
is valid exactly when the tool names are pairwise distinct; for every name
`n` the errors carry exactly one entry with path `tools.n` per occurrence of
`n` beyond the first; and a document with pairwise distinct names receives
no error at all. -/
theorem validateTools_duplicate_names (tf : ToolsFile) :
    ((validateTools (.ok (.success tf))).valid = true ↔
      (tf.tools.map MCPToolDefinition.name).Nodup)
    ∧ (∀ n : String,
        ((validateTools (.ok (.success tf))).errors.filter
            (fun e => e.path == "tools." ++ n)).length =
          (tf.tools.filter (fun t => t.name == n)).length - 1)
    ∧ ((tf.tools.map MCPToolDefinition.name).Nodup →
        (validateTools (.ok (.success tf))).errors = []) := by
  rw [validateTools_success_eq]
  refine ⟨?_, ?_, ?_⟩
  · simpa using noDupAux_eq_true_iff tf.tools []
  · intro n
    simpa using dupErrorsAux_count n tf.tools []
  · intro hnd
    have h1 : noDupAux tf.tools [] = true :=
      (noDupAux_eq_true_iff tf.tools []).mpr ⟨hnd, by simp⟩
    have h2 := noDupAux_eq_isEmpty tf.tools []
    rw [h1] at h2
    simpa using h2.symm

/-- Witness for C1: a two-tool collection with distinct names gets an empty
error list and `valid = true`. -/
def tfDistinct : ToolsFile :=
  { schemaRef := none,
    tools :=
      [{ name := "alphaTool", description := "first tool of the witness file",
         parameters := [], returns := none, examples := none },
       { name := "betaTool", description := "second tool of the witness file",
         parameters := [], returns := none, examples := none }] }

theorem validateTools_duplicate_names_witness :
    (validateTools (.ok (.success tfDistinct))).errors = [] ∧
    (validateTools (.ok (.success tfDistinct))).valid = true := by
  have h := validateTools_duplicate_names tfDistinct
  exact ⟨h.2.2 (by decide), h.1.mpr (by decide)⟩

/-- C2: Both validators are total functions (they never throw: the
exception of `JSON.parse` is caught and materialised), and on an unparsable
input they return `valid = false`, exactly one error with the empty path,
and no warnings. -/
theorem validators_on_parse_failure (msg : String) :
    validateTools (.error msg) =
      { valid := false, errors := [{ path := "", message := msg }],
        warnings := [] }
    ∧ validateConfig (.error msg) =
      { valid := false, errors := [{ path := "", message := msg }],
        warnings := [] } :=
  ⟨rfl, rfl⟩

/-- C3: On a structurally valid tool-collection document the warnings
are exactly one per `required` parameter carrying a `default`, at path
`tools.<tool>.parameters.<param>` (see `specWarnings`), and validity is
equivalent to the absence of errors — warnings never affect it. -/
theorem validateTools_required_default_warnings (tf : ToolsFile) :
    (validateTools (.ok (.success tf))).warnings = specWarnings tf.tools
    ∧ (validateTools (.ok (.success tf))).valid =
        (validateTools (.ok (.success tf))).errors.isEmpty := by
  rw [validateTools_success_eq]
  exact ⟨rfl, noDupAux_eq_isEmpty tf.tools []⟩

-- ============================================================================
-- Tool results (src/mcp/types.ts)
-- ============================================================================

/-- Structure `MCPResource` (src/mcp/types.ts). -/
structure MCPResource where
  uri : String
  name : String
  mimeType : Option String
  description : Option String

/-- Structure `MCPUIComponent` (src/mcp/types.ts); `type` is the
`MCPUIComponentType` string discriminator. -/
inductive MCPUIComponent where
  | mk (type : String) (id : Option String) (props : List (String × Json))
      (children : List MCPUIComponent) (events : List (String × String)) :
      MCPUIComponent

/-- Union `MCPContent` (src/mcp/types.ts): the closed union of content items; the
only inhabitants carry the discriminators `text`, `image`, `resource`, `ui`. -/
inductive MCPContent where
  | text (text : String) : MCPContent
  | image (data : String) (mimeType : String) : MCPContent
  | resource (resource : MCPResource) : MCPContent
  | ui (component : MCPUIComponent) : MCPContent

/-- The `type` discriminator field of an `MCPContent` item. -/
def MCPContent.ctype : MCPContent → String
  | .text _ => "text"
  | .image _ _ => "image"
  | .resource _ => "resource"
  | .ui _ => "ui"

/-- Structure `MCPToolResult` (src/mcp/types.ts). -/
structure MCPToolResult where
  content : List MCPContent
  isError : Option Bool

-- ============================================================================
-- Test harness (src/testing/testHarness.ts)
-- ============================================================================

/-- A JS `RegExp` as the matcher consumes it: only `.test` and the string
rendering interpolated into the failure message are observable. -/
structure JSRegExp where
  test : String → Bool
  display : String

/-- The `expectedOutput` field of a `TestCase`.  `type` is declared as the
literal union of "text", "json" and "ui" and is modelled as the underlying
string. -/
structure ExpectedOutput where
  type : String
  contains : Option String
  «matches» : Option JSRegExp
  validator : Option (MCPToolResult → Bool)

/-- Structure `TestCase` (src/testing/testHarness.ts). -/
structure TestCase where
  id : String
  name : String
  tool : String
  input : List (String × Json)
  expectedOutput : Option ExpectedOutput
  timeout : Option Nat

/-- Structure `TestResult` (src/testing/testHarness.ts).  Wall-clock durations
(`Date.now()` differences) are not modelled and are uniformly `0`. -/
structure TestResult where
  testId : String
  passed : Bool
  duration : Nat
  error : Option String
  output : Option MCPToolResult

/-- Structure `TestSuiteResult` (src/testing/testHarness.ts). -/
structure TestSuiteResult where
  passed : Nat
  failed : Nat
  skipped : Nat
  duration : Nat
  results : List TestResult

/-- Return value of `TestRunner.validateOutput`. -/
structure OutputValidation where
  passed : Bool
  error : Option String

/-- JS `haystack.includes(needle)`. -/
def strIncludes (haystack needle : String) : Bool :=
  decide (needle.data <:+: haystack.data)

/-- Computes `result.content.filter(...).map(...).join(newline)` over the text items
— the newline-joined concatenation of the text-typed content items, computed
identically by the substring and the pattern check. -/
def textContent (content : List MCPContent) : String :=
  String.intercalate "\n" (content.filterMap (fun c =>
    match c with
    | .text t => some t
    | _ => none))

/-- Step (4) of `TestRunner.validateOutput`: the custom validator. -/
def checkValidatorStep (result : MCPToolResult) (expected : ExpectedOutput) :
    OutputValidation :=
  match expected.validator with
  | some f =>
      if f result then { passed := true, error := none }
      else { passed := false, error := some "Custom validator returned false" }
  | none => { passed := true, error := none }

/-- Step (3) of `TestRunner.validateOutput`: the regex check (a present
`RegExp` object is always truthy in JS). -/
def checkMatchesStep (result : MCPToolResult) (expected : ExpectedOutput) :
    OutputValidation :=
  match expected.«matches» with
  | some re =>
      if re.test (textContent result.content) then
        checkValidatorStep result expected
      else
        { passed := false,
          error := some ("Output does not match pattern " ++ re.display) }
  | none => checkValidatorStep result expected

/-- Step (2) of `TestRunner.validateOutput`: the substring check
(`if (expected.contains)` — a present but empty string is falsy in JS and
skips the check). -/
def checkContainsStep (result : MCPToolResult) (expected : ExpectedOutput) :
    OutputValidation :=
  match expected.contains with
  | some s =>
      if s = "" then checkMatchesStep result expected
      else if strIncludes (textContent result.content) s then
        checkMatchesStep result expected
      else
        { passed := false,
          error := some ("Output does not contain \"" ++ s ++ "\"") }
  | none => checkMatchesStep result expected

/-- Embeds `TestRunner.validateOutput`: absent expectation passes; otherwise the
content-type check (step 1; `if (expected.type)` — empty string falsy) and
then steps (2)–(4). -/
def validateOutput (result : MCPToolResult) (expected : Option ExpectedOutput) :
    OutputValidation :=
  match expected with
  | none => { passed := true, error := none }
  | some e =>
      if e.type = "" then checkContainsStep result e
      else if result.content.any (fun c => c.ctype == e.type) then
        checkContainsStep result e
      else
        { passed := false,
          error := some ("Expected content type \"" ++ e.type ++ "\" not found") }

-- ----------------------------------------------------------------------------
-- Spec-side matcher: ordered checks, first violation wins
-- ----------------------------------------------------------------------------

/-- First violated check of an ordered list of `(satisfied, message)` pairs:
`none` when every check is satisfied, otherwise the message of the first
violated one (all later checks are skipped). -/
def firstViolation : List (Bool × String) → Option String
  | [] => none
  | (ok, msg) :: rest => if ok then firstViolation rest else some msg

/-- The four checks of the matcher in the order the spec prescribes —
content type, substring, pattern, custom predicate — each paired with the
message naming it; an absent (or JS-falsy) expectation is vacuously
satisfied. -/
def specCheckList (result : MCPToolResult) (e : ExpectedOutput) :
    List (Bool × String) :=
  [((e.type = "" || result.content.any (fun c => c.ctype == e.type) : Bool),
    "Expected content type \"" ++ e.type ++ "\" not found"),
   ((match e.contains with
     | some s => (s = "" || strIncludes (textContent result.content) s : Bool)
     | none => true),
    "Output does not contain \"" ++ (e.contains.getD "") ++ "\""),
   ((match e.«matches» with
     | some re => re.test (textContent result.content)
     | none => true),
    "Output does not match pattern " ++
      ((e.«matches»).map JSRegExp.display).getD ""),
   ((match e.validator with
     | some f => f result
     | none => true),
    "Custom validator returned false")]

/-- The output matcher as the spec words it: evaluate the checks in the
fixed order and stop at the first violated one. -/
def specMatcher (result : MCPToolResult) (expected : Option ExpectedOutput) :
    OutputValidation :=
  match expected with
  | none => { passed := true, error := none }
  | some e =>
      match firstViolation (specCheckList result e) with
      | some msg => { passed := false, error := some msg }
      | none => { passed := true, error := none }

/-- C6: `TestRunner.validateOutput` is exactly the ordered
first-violation matcher: checks run in the order content-type, substring,
pattern, custom predicate; the first violated check determines the single
failure message and all later checks are skipped; the content-type check
asks for at least one item of the expected type and the substring/pattern
checks read the newline-joined text content. -/
theorem validateOutput_eq_specMatcher (result : MCPToolResult)
    (expected : Option ExpectedOutput) :
    validateOutput result expected = specMatcher result expected := by
  cases expected with
  | none => rfl
  | some e =>
      obtain ⟨ty, co, ma, va⟩ := e
      simp only [validateOutput, specMatcher, specCheckList, firstViolation]
      cases co with
      | none =>
          cases ma with
          | none =>
              cases va with
              | none =>
                  by_cases h1 : ty = "" <;>
                    simp [h1, checkContainsStep, checkMatchesStep,
                      checkValidatorStep, firstViolation] <;>
                    split_ifs <;> simp_all
              | some f =>
                  by_cases h1 : ty = "" <;>
                    simp [h1, checkContainsStep, checkMatchesStep,
                      checkValidatorStep, firstViolation] <;>
                    split_ifs <;> simp_all
          | some re =>
              cases va with
              | none =>
                  by_cases h1 : ty = "" <;>
                    simp [h1, checkContainsStep, checkMatchesStep,
                      checkValidatorStep, firstViolation] <;>
                    split_ifs <;> simp_all
              | some f =>
                  by_cases h1 : ty = "" <;>
                    simp [h1, checkContainsStep, checkMatchesStep,
                      checkValidatorStep, firstViolation] <;>
                    split_ifs <;> simp_all
      | some s =>
          cases ma with
          | none =>
              cases va with
              | none =>
                  by_cases h1 : ty = "" <;>
                    simp [h1, checkContainsStep, checkMatchesStep,
                      checkValidatorStep, firstViolation] <;>
                    split_ifs <;> simp_all
              | some f =>
                  by_cases h1 : ty = "" <;>
                    simp [h1, checkContainsStep, checkMatchesStep,
                      checkValidatorStep, firstViolation] <;>
                    split_ifs <;> simp_all
          | some re =>
              cases va with
              | none =>
                  by_cases h1 : ty = "" <;>
                    simp [h1, checkContainsStep, checkMatchesStep,
                      checkValidatorStep, firstViolation] <;>
                    split_ifs <;> simp_all
              | some f =>
                  by_cases h1 : ty = "" <;>
                    simp [h1, checkContainsStep, checkMatchesStep,
                      checkValidatorStep, firstViolation] <;>
                    split_ifs <;> simp_all

/-- No content item of the closed `MCPContent` union carries the
discriminator `"json"`. -/
theorem ctype_ne_json (c : MCPContent) : (c.ctype == "json") = false := by
  cases c <;> simp [MCPContent.ctype]

/-- C10: The `json` content-type expectation admitted by the
`TestCase.expectedOutput` interface is unsatisfiable: content items can only
be `text`, `image`, `resource` or `ui`, so the matcher always fails with the
content-type-not-found message, whatever the result and whatever the other
expectation fields. -/
theorem json_expectation_unsatisfiable (result : MCPToolResult)
    (co : Option String) (ma : Option JSRegExp)
    (va : Option (MCPToolResult → Bool)) :
    validateOutput result
        (some { type := "json", contains := co, «matches» := ma,
                validator := va }) =
      { passed := false,
        error := some "Expected content type \"json\" not found" } := by
  have hany : result.content.any (fun c => c.ctype == "json") = false := by
    rw [List.any_eq_false]
    intro c _
    simp [ctype_ne_json c]
  simp [validateOutput, hany]

-- ----------------------------------------------------------------------------
-- Test runner
-- ----------------------------------------------------------------------------

/-- The invocation boundary of the runner (§6 of the design): the awaited
tool call either rejects — the `catch` branch of `runTest`, carrying the
exception message — or resolves to an `MCPToolResult`.  The source
instantiates it with the simulated `simulateToolCall`, but `runTest` is
written against exactly this interface. -/
abbrev InvokeFn := String → List (String × Json) → Except String MCPToolResult

/-- Embeds `TestRunner.runTest`: invoke, then evaluate the expectation only when
the invocation succeeded and an expectation is present. -/
def runTest (invoke : InvokeFn) (test : TestCase) : TestResult :=
  match invoke test.tool test.input with
  | .error e =>
      { testId := test.id, passed := false, duration := 0,
        error := some e, output := none }
  | .ok mockResult =>
      match test.expectedOutput with
      | some _ =>
          let validation := validateOutput mockResult test.expectedOutput
          { testId := test.id, passed := validation.passed, duration := 0,
            error := validation.error, output := some mockResult }
      | none =>
          { testId := test.id, passed := true, duration := 0,
            error := none, output := some mockResult }

/-- Embeds `TestRunner.runTests`: run the cases strictly in input order, pushing
each result, then aggregate the counts. -/
def runTests (invoke : InvokeFn) (tests : List TestCase) : TestSuiteResult :=
  let results := tests.foldl (fun rs t => rs ++ [runTest invoke t]) []
  { passed := (results.filter (fun r => r.passed)).length,
    failed := (results.filter (fun r => !r.passed)).length,
    skipped := 0,
    duration := 0,
    results := results }

/-- A push-style fold whose step appends `g x` is the flatMap of `g`. -/
theorem foldl_push_eq_flatMap {α β : Type} (step : List β → α → List β)
    (g : α → List β) (hstep : ∀ acc x, step acc x = acc ++ g x) :
    ∀ (l : List α) (acc : List β),
      l.foldl step acc = acc ++ l.flatMap g := by
  intro l
  induction l with
  | nil => intro acc; simp
  | cons x rest ih =>
      intro acc
      simp only [List.foldl_cons, hstep, ih, List.flatMap_cons,
        List.append_assoc]

theorem length_filter_add_length_filter_not {α : Type} (l : List α)
    (p : α → Bool) :
    (l.filter p).length + (l.filter (fun a => !p a)).length = l.length := by
  induction l with
  | nil => simp
  | cons a rest ih =>
      cases h : p a <;> simp [h, ih, Nat.add_assoc, Nat.add_left_comm, Nat.add_comm, Nat.succ_eq_add_one]
      · omega
      · omega

theorem runTest_testId (invoke : InvokeFn) (t : TestCase) :
    (runTest invoke t).testId = t.id := by
  unfold runTest
  cases invoke t.tool t.input with
  | error e => rfl
  | ok res => cases t.expectedOutput <;> rfl

theorem flatMap_singleton_eq_map {α β : Type} (f : α → β) (l : List α) :
    (l.flatMap fun x => [f x]) = l.map f := by
  induction l <;> simp_all

theorem runTests_results (invoke : InvokeFn) (tests : List TestCase) :
    (runTests invoke tests).results = tests.map (runTest invoke) := by
  unfold runTests
  rw [foldl_push_eq_flatMap _ (fun t => [runTest invoke t]) (fun _ _ => rfl)]
  simp [flatMap_singleton_eq_map]

/-- C7: For every suite run, `passed + failed` equals the number of
input cases, `skipped` is `0`, and the results are one per input case in
exactly the input order (`results[i].testId = tests[i].id`). -/
theorem runTests_aggregate_invariant (invoke : InvokeFn)
    (tests : List TestCase) :
    (runTests invoke tests).passed + (runTests invoke tests).failed =
        tests.length
    ∧ (runTests invoke tests).skipped = 0
    ∧ (runTests invoke tests).results.length = tests.length
    ∧ (runTests invoke tests).results.map TestResult.testId =
        tests.map TestCase.id := by
  refine ⟨?_, rfl, ?_, ?_⟩
  · show ((runTests invoke tests).results.filter (fun r => r.passed)).length +
        ((runTests invoke tests).results.filter (fun r => !r.passed)).length =
        tests.length
    rw [length_filter_add_length_filter_not, runTests_results,
      List.length_map]
  · rw [runTests_results, List.length_map]
  · rw [runTests_results, List.map_map]
    exact List.map_congr_left (fun t _ => runTest_testId invoke t)

/-- C8: A rejecting invocation makes the case fail with the rejection
message and no expectation is evaluated (the result is independent of
`expectedOutput`); a succeeding invocation with no expectation passes
unconditionally; and the suite never aborts: it always carries one result
per case, each computed from its own case alone. -/
theorem runTest_failure_isolation (invoke : InvokeFn) (test : TestCase) :
    (∀ e : String, invoke test.tool test.input = .error e →
      runTest invoke test =
        { testId := test.id, passed := false, duration := 0,
          error := some e, output := none })
    ∧ (∀ res : MCPToolResult, invoke test.tool test.input = .ok res →
        test.expectedOutput = none →
        runTest invoke test =
          { testId := test.id, passed := true, duration := 0,
            error := none, output := some res })
    ∧ (∀ tests : List TestCase,
        (runTests invoke tests).results = tests.map (runTest invoke)) := by
  refine ⟨?_, ?_, runTests_results invoke⟩
  · intro e he
    unfold runTest
    rw [he]
  · intro res hres hexp
    unfold runTest
    rw [hres, hexp]

/-- Witness data for C8: a concrete test case with no expectation. -/
def tcWitness : TestCase :=
  { id := "t0", name := "witness case", tool := "hello", input := [],
    expectedOutput := none, timeout := none }

/-- Witness data for C8: a concrete successful tool result. -/
def mockResultWitness : MCPToolResult :=
  { content := [.text "Mock response"], isError := none }

theorem runTest_failure_isolation_witness :
    runTest (fun _ _ => Except.error "boom") tcWitness =
      { testId := "t0", passed := false, duration := 0,
        error := some "boom", output := none }
    ∧ runTest (fun _ _ => Except.ok mockResultWitness) tcWitness =
      { testId := "t0", passed := true, duration := 0,
        error := none, output := some mockResultWitness } :=
  ⟨(runTest_failure_isolation (fun _ _ => Except.error "boom") tcWitness).1
      "boom" rfl,
   (runTest_failure_isolation (fun _ _ => Except.ok mockResultWitness)
      tcWitness).2.1 mockResultWitness rfl rfl⟩

-- ----------------------------------------------------------------------------
-- Test generator
-- ----------------------------------------------------------------------------

/-- Embeds `TestGenerator.generateSampleValue`: explicit default first
(`!== undefined`, so falsy defaults count), then first enum value when the
enum is present and non-empty, then the switch on the declared type with a
null fallback. -/
def generateSampleValue (param : MCPToolParameter) : Json :=
  match param.default with
  | some v => v
  | none =>
    match param.enum with
    | e :: _ => Json.str e
    | [] =>
      match param.type with
      | "string" => Json.str ("sample_" ++ param.name)
      | "number" => Json.num 42
      | "boolean" => Json.bool true
      | "array" => Json.arr []
      | "object" => Json.obj []
      | _ => Json.null

/-- Embeds `TestGenerator.generateSampleInput`: one assignment per parameter, in
parameter order. -/
def generateSampleInput (params : List MCPToolParameter) :
    List (String × Json) :=
  params.foldl (fun input p => recInsert input p.name (generateSampleValue p))
    []

/-- Embeds `TestGenerator.generateRequiredOnlyInput`. -/
def generateRequiredOnlyInput (params : List MCPToolParameter) :
    List (String × Json) :=
  params.foldl (fun input p =>
    if p.required then recInsert input p.name (generateSampleValue p)
    else input) []

/-- Name of the i-th example case (`Example ${i+1}` plus the description
suffix; a present but empty description is JS-falsy and adds no suffix). -/
def exampleCaseName (toolName : String) (i : Nat) (desc : Option String) :
    String :=
  toolName ++ ": Example " ++ toString (i + 1) ++
    (match desc with
     | some d => if d = "" then "" else " - " ++ d
     | none => "")

/-- The test case pushed for the i-th declared example of a tool. -/
def mkExampleCase (tool : MCPToolDefinition) (i : Nat) (ex : MCPToolExample) :
    TestCase :=
  { id := tool.name ++ "-example-" ++ toString i,
    name := exampleCaseName tool.name i ex.description,
    tool := tool.name,
    input := ex.input,
    expectedOutput := none,
    timeout := none }

/-- Body of the per-tool loop of `TestGenerator.generateFromTools`: push the
basic-invocation case, then the required-parameters case when some parameter
is required, then one case per declared example (`if (tool.examples)` — a
present empty array is truthy and contributes nothing). -/
def generateForTool (tests : List TestCase) (tool : MCPToolDefinition) :
    List TestCase :=
  let tests := tests ++
    [{ id := tool.name ++ "-basic",
       name := tool.name ++ ": Basic invocation",
       tool := tool.name,
       input := generateSampleInput tool.parameters,
       expectedOutput := some { type := "text", contains := none,
                                «matches» := none, validator := none },
       timeout := none }]
  let requiredParams := tool.parameters.filter (fun p => p.required)
  let tests :=
    if requiredParams.length > 0 then
      tests ++
        [{ id := tool.name ++ "-required-params",
           name := tool.name ++ ": Required parameters",
           tool := tool.name,
           input := generateRequiredOnlyInput tool.parameters,
           expectedOutput := some { type := "text", contains := none,
                                    «matches» := none, validator := none },
           timeout := none }]
    else tests
  match tool.examples with
  | some examples =>
      examples.enum.foldl
        (fun ts ie => ts ++ [mkExampleCase tool ie.1 ie.2]) tests
  | none => tests

/-- Embeds `TestGenerator.generateFromTools`. -/
def generateFromTools (tools : List MCPToolDefinition) : List TestCase :=
  tools.foldl generateForTool []

-- ----------------------------------------------------------------------------
-- Spec-side characterizations of the generator
-- ----------------------------------------------------------------------------

/-- The derived cases of one tool as the spec orders them: (a) the basic
invocation case (`<tool>-basic`, every parameter sampled, expecting content
type `text`); (b) if and only if some parameter is required, the
required-parameters-only case (`<tool>-required-params`, same expectation);
(c) one case per declared example, in example order, id
`<tool>-example-<i>` with zero-based `i`, the input of the example verbatim, and
no expectation. -/
def specToolCases (tool : MCPToolDefinition) : List TestCase :=
  [{ id := tool.name ++ "-basic",
     name := tool.name ++ ": Basic invocation",
     tool := tool.name,
     input := generateSampleInput tool.parameters,
     expectedOutput := some { type := "text", contains := none,
                              «matches» := none, validator := none },
     timeout := none }]
  ++ (if tool.parameters.any (fun p => p.required) then
        [{ id := tool.name ++ "-required-params",
           name := tool.name ++ ": Required parameters",
           tool := tool.name,
           input := generateRequiredOnlyInput tool.parameters,
           expectedOutput := some { type := "text", contains := none,
                                    «matches» := none, validator := none },
           timeout := none }]
      else [])
  ++ (tool.examples.getD []).enum.map (fun ie => mkExampleCase tool ie.1 ie.2)

/-- The whole derivation, tool by tool in collection order. -/
def specDerivedCases (tools : List MCPToolDefinition) : List TestCase :=
  tools.flatMap specToolCases

theorem length_filter_pos_iff_any {α : Type} (l : List α) (p : α → Bool) :
    ((l.filter p).length > 0) ↔ l.any p = true := by
  induction l with
  | nil => simp
  | cons a rest ih =>
      cases h : p a <;> simp [h, ih]

theorem foldl_exampleCases (tool : MCPToolDefinition)
    (pairs : List (Nat × MCPToolExample)) (acc : List TestCase) :
    pairs.foldl (fun ts ie => ts ++ [mkExampleCase tool ie.1 ie.2]) acc =
      acc ++ pairs.map (fun ie => mkExampleCase tool ie.1 ie.2) := by
  have h := foldl_push_eq_flatMap
    (fun ts ie => ts ++ [mkExampleCase tool ie.1 ie.2])
    (fun ie => [mkExampleCase tool ie.1 ie.2])
    (fun _ _ => rfl) pairs acc
  rw [h, flatMap_singleton_eq_map]

theorem generateForTool_eq (tests : List TestCase)
    (tool : MCPToolDefinition) :
    generateForTool tests tool = tests ++ specToolCases tool := by
  unfold generateForTool specToolCases
  cases hex : tool.examples with
  | none =>
      by_cases hr : tool.parameters.any (fun p => p.required) = true <;>
        simp [length_filter_pos_iff_any, hr, List.append_assoc]
  | some exs =>
      by_cases hr : tool.parameters.any (fun p => p.required) = true <;>
        simp [length_filter_pos_iff_any, hr, foldl_exampleCases,
          List.append_assoc]

/-- C4: `generateFromTools` produces, per tool in input order: the
basic-invocation case (id `<tool>-basic`, every parameter sampled,
expecting content type `text`); then, iff some parameter is required, the
required-parameters case (id `<tool>-required-params`, only required
parameters sampled, same expectation); then one case per declared example
in example order (id `<tool>-example-<i>`, zero-based `i`, with the
input verbatim, no expectation) — i.e. exactly `specDerivedCases`. -/
theorem generateFromTools_eq_spec (tools : List MCPToolDefinition) :
    generateFromTools tools = specDerivedCases tools := by
  unfold generateFromTools specDerivedCases
  rw [foldl_push_eq_flatMap generateForTool specToolCases generateForTool_eq]
  simp

/-- The sample-value policy as the spec words it: an ordered list of rules
— explicit default, first enum value, type-based default — where the first
matching (non-`none`) rule wins. -/
def specSampleRules (param : MCPToolParameter) : List (Option Json) :=
  [param.default,
   (match param.enum with
    | e :: _ => some (Json.str e)
    | [] => none),
   some (match param.type with
     | "string" => Json.str ("sample_" ++ param.name)
     | "number" => Json.num 42
     | "boolean" => Json.bool true
     | "array" => Json.arr []
     | "object" => Json.obj []
     | _ => Json.null)]

/-- First matching rule of the sample-value policy (the last rule always
matches, so the `Json.null` fallback of `getD` is never reached). -/
def specSampleValue (param : MCPToolParameter) : Json :=
  (((specSampleRules param).findSome? id).getD Json.null)

/-- C5: `generateSampleValue` implements exactly the first-match
sample-value policy: declared default (even falsy) first, else first enum
value of a non-empty enum, else `"sample_" ++ name` / `42` / `true` / empty
array / empty object by type, else null. -/
theorem generateSampleValue_eq_spec (param : MCPToolParameter) :
    generateSampleValue param = specSampleValue param := by
  obtain ⟨n, ty, d, req, de, en, it, pr⟩ := param
  cases de with
  | some v =>
      simp [generateSampleValue, specSampleValue, specSampleRules,
        MCPToolParameter.default, List.findSome?]
  | none =>
      cases en with
      | nil =>
          simp [generateSampleValue, specSampleValue, specSampleRules,
            MCPToolParameter.default, MCPToolParameter.enum,
            List.findSome?]
      | cons e rest =>
          simp [generateSampleValue, specSampleValue, specSampleRules,
            MCPToolParameter.default, MCPToolParameter.enum,
            List.findSome?]

-- ============================================================================
-- Type generator (src/codegen, re-exported through src/extension.ts bundle)
-- ============================================================================

/-- One word of `toPascalCase`:
`word.charAt(0).toUpperCase() + word.slice(1)` (an empty word stays empty,
as `charAt`/`slice` of an empty JS string are empty). -/
def capitalizeWord (w : String) : String :=
  match w.data with
  | [] => ""
  | c :: rest => String.mk (c.toUpper :: rest)

/-- Embeds `TypeGenerator.toPascalCase`: split on `-` and `_`, capitalize each
word, join. -/
def toPascalCase (str : String) : String :=
  String.join ((str.split (fun c => c = '-' || c = '_')).map capitalizeWord)

mutual

/-- Embeds `TypeGenerator.paramToTsType`: a non-empty enum overrides everything
with the union of quoted literals; otherwise the switch on the declared
type, recursing into `items` for arrays and into `properties` (in insertion
order, as `Object.entries`) for objects, with the untyped fallbacks
`unknown[]` / `Record<string, unknown>` and the default branch `unknown`. -/
def paramToTsType : MCPToolParameter → String
  | .mk _ ty _ _ _ enm items props =>
    if enm.length > 0 then
      String.intercalate " | " (enm.map (fun e => "\x27" ++ e ++ "\x27"))
    else
      match ty with
      | "string" => "string"
      | "number" => "number"
      | "boolean" => "boolean"
      | "array" =>
          match items with
          | some it => "Array<" ++ paramToTsType it ++ ">"
          | none => "unknown[]"
      | "object" =>
          match props with
          | some ps =>
              "\x7b " ++ String.intercalate "; " (propsToTsTypes ps) ++ " \x7d"
          | none => "Record<string, unknown>"
      | _ => "unknown"

/-- The `Object.entries(param.properties).map(([key, value]) => ...)` leg of
`paramToTsType`. -/
def propsToTsTypes : List (String × MCPToolParameter) → List String
  | [] => []
  | kv :: rest => (kv.1 ++ ": " ++ paramToTsType kv.2) :: propsToTsTypes rest

end

/-- Embeds `TypeGenerator.generateToolTypes`: the pushed lines for one tool —
JSDoc block, input interface with two lines (doc + field) per parameter, and
the output alias when `returns` is present. -/
def generateToolTypes (tool : MCPToolDefinition) : List String :=
  let lines : List String := []
  let typeName := toPascalCase tool.name
  let lines := lines ++ ["/**", " * " ++ tool.description, " */"]
  let lines := lines ++ ["export interface " ++ typeName ++ "Input \x7b"]
  let lines := tool.parameters.foldl (fun ls p =>
    ls ++ ["    /** " ++ p.description ++ " */",
           "    " ++ p.name ++ (if p.required then "" else "?") ++ ": " ++
             paramToTsType p ++ ";"]) lines
  let lines := lines ++ ["\x7d"]
  match tool.returns with
  | some _ =>
      lines ++ ["", "export type " ++ typeName ++ "Output = MCPToolResult;"]
  | none => lines

/-- The two lines emitted for one parameter: its JSDoc and its field, the
field being optional (`?`) exactly when `required` is false. -/
def specFieldLines (p : MCPToolParameter) : List String :=
  ["    /** " ++ p.description ++ " */",
   "    " ++ p.name ++ (if p.required then "" else "?") ++ ": " ++
     paramToTsType p ++ ";"]

/-- The per-tool type declarations as the spec describes them: a JSDoc
block, an input-type declaration with exactly one field per declared
parameter, and an output-type alias exactly when `returns` is present. -/
def specToolTypeLines (tool : MCPToolDefinition) : List String :=
  ["/**", " * " ++ tool.description, " */",
   "export interface " ++ toPascalCase tool.name ++ "Input \x7b"]
  ++ tool.parameters.flatMap specFieldLines
  ++ ["\x7d"]
  ++ (match tool.returns with
      | some _ =>
          ["", "export type " ++ toPascalCase tool.name ++
            "Output = MCPToolResult;"]
      | none => [])

theorem foldl_fieldLines (params : List MCPToolParameter)
    (acc : List String) :
    params.foldl (fun ls p =>
      ls ++ ["    /** " ++ p.description ++ " */",
             "    " ++ p.name ++ (if p.required then "" else "?") ++ ": " ++
               paramToTsType p ++ ";"]) acc =
      acc ++ params.flatMap specFieldLines :=
  foldl_push_eq_flatMap _ specFieldLines (fun _ _ => rfl) params acc

theorem generateToolTypes_lines (tool : MCPToolDefinition) :
    generateToolTypes tool = specToolTypeLines tool := by
  unfold generateToolTypes specToolTypeLines
  cases hret : tool.returns <;>
    simp [hret, foldl_fieldLines, List.append_assoc]

theorem propsToTsTypes_eq_map (ps : List (String × MCPToolParameter)) :
    propsToTsTypes ps = ps.map (fun kv => kv.1 ++ ": " ++ paramToTsType kv.2) := by
  induction ps with
  | nil => rfl
  | cons kv rest ih => simp [propsToTsTypes, ih]

/-- C9: The interface generator is total on every tool collection (it
never fails), emits per tool exactly one field per declared parameter —
optional iff `required` is false — plus an output alias exactly when
`returns` is present (first conjunct), and maps parameter types as
specified: non-empty enum overrides everything with the closed union of its
literals, scalars map to `string`/`number`/`boolean`, arrays recurse into
`items` with the `unknown[]` fallback, objects recurse into `properties`
(one entry per property) with the `Record<string, unknown>` fallback. -/
theorem typeGenerator_spec :
    (∀ tool : MCPToolDefinition,
        generateToolTypes tool = specToolTypeLines tool)
    ∧ (∀ p : MCPToolParameter, 0 < p.enum.length →
        paramToTsType p =
          String.intercalate " | " (p.enum.map (fun e => "\x27" ++ e ++ "\x27")))
    ∧ (∀ p : MCPToolParameter, p.enum = [] → p.type = "string" →
        paramToTsType p = "string")
    ∧ (∀ p : MCPToolParameter, p.enum = [] → p.type = "number" →
        paramToTsType p = "number")
    ∧ (∀ p : MCPToolParameter, p.enum = [] → p.type = "boolean" →
        paramToTsType p = "boolean")
    ∧ (∀ (p it : MCPToolParameter), p.enum = [] → p.type = "array" →
        p.items = some it →
        paramToTsType p = "Array<" ++ paramToTsType it ++ ">")
    ∧ (∀ p : MCPToolParameter, p.enum = [] → p.type = "array" →
        p.items = none → paramToTsType p = "unknown[]")
    ∧ (∀ (p : MCPToolParameter) (ps : List (String × MCPToolParameter)),
        p.enum = [] → p.type = "object" → p.properties = some ps →
        paramToTsType p = "\x7b " ++ String.intercalate "; "
          (ps.map (fun kv => kv.1 ++ ": " ++ paramToTsType kv.2)) ++ " \x7d")
    ∧ (∀ p : MCPToolParameter, p.enum = [] → p.type = "object" →
        p.properties = none → paramToTsType p = "Record<string, unknown>") := by
  refine ⟨generateToolTypes_lines, ?_, ?_, ?_, ?_, ?_, ?_, ?_, ?_⟩
  · rintro ⟨n, ty, d, r, de, en, it, pr⟩ h
    simp only [MCPToolParameter.enum] at h ⊢
    cases en with
    | nil => simp at h
    | cons e rest =>
        rw [paramToTsType.eq_def]
        simp
  · rintro ⟨n, ty, d, r, de, en, it, pr⟩ h1 h2
    simp only [MCPToolParameter.enum] at h1
    simp only [MCPToolParameter.type] at h2
    subst h1; subst h2
    rw [paramToTsType.eq_def]
    simp
  · rintro ⟨n, ty, d, r, de, en, it, pr⟩ h1 h2
    simp only [MCPToolParameter.enum] at h1
    simp only [MCPToolParameter.type] at h2
    subst h1; subst h2
    rw [paramToTsType.eq_def]
    simp
  · rintro ⟨n, ty, d, r, de, en, it, pr⟩ h1 h2
    simp only [MCPToolParameter.enum] at h1
    simp only [MCPToolParameter.type] at h2
    subst h1; subst h2
    rw [paramToTsType.eq_def]
    simp
  · rintro ⟨n, ty, d, r, de, en, it, pr⟩ itp h1 h2 h3
    simp only [MCPToolParameter.enum] at h1
    simp only [MCPToolParameter.type] at h2
    simp only [MCPToolParameter.items] at h3
    subst h1; subst h2; subst h3
    rw [paramToTsType.eq_def]
    simp
  · rintro ⟨n, ty, d, r, de, en, it, pr⟩ h1 h2 h3
    simp only [MCPToolParameter.enum] at h1
    simp only [MCPToolParameter.type] at h2
    simp only [MCPToolParameter.items] at h3
    subst h1; subst h2; subst h3
    rw [paramToTsType.eq_def]
    simp
  · rintro ⟨n, ty, d, r, de, en, it, pr⟩ ps h1 h2 h3
    simp only [MCPToolParameter.enum] at h1
    simp only [MCPToolParameter.type] at h2
    simp only [MCPToolParameter.properties] at h3
    subst h1; subst h2; subst h3
    rw [paramToTsType.eq_def]
    simp [propsToTsTypes_eq_map]
  · rintro ⟨n, ty, d, r, de, en, it, pr⟩ h1 h2 h3
    simp only [MCPToolParameter.enum] at h1
    simp only [MCPToolParameter.type] at h2
    simp only [MCPToolParameter.properties] at h3
    subst h1; subst h2; subst h3
    rw [paramToTsType.eq_def]
    simp

/-- Witness data for C9: a required string parameter. -/
def strParamW : MCPToolParameter :=
  .mk "q" "string" "the query" true none [] none none

/-- Witness data for C9: an enum parameter. -/
def enumParamW : MCPToolParameter :=
  .mk "mode" "string" "the mode" false none ["fast", "slow"] none none

/-- Witness data for C9: a number parameter. -/
def numParamW : MCPToolParameter :=
  .mk "count" "number" "how many" false none [] none none

/-- Witness data for C9: a boolean parameter. -/
def boolParamW : MCPToolParameter :=
  .mk "flag" "boolean" "a flag" false none [] none none

/-- Witness data for C9: a typed array parameter. -/
def arrParamW : MCPToolParameter :=
  .mk "tags" "array" "the tags" false none [] (some strParamW) none

/-- Witness data for C9: an untyped array parameter. -/
def arrNoneParamW : MCPToolParameter :=
  .mk "xs" "array" "items" false none [] none none

/-- Witness data for C9: an object parameter with one property. -/
def objParamW : MCPToolParameter :=
  .mk "cfg" "object" "the config" false none [] none (some [("q", strParamW)])

/-- Witness data for C9: an untyped object parameter. -/
def objNoneParamW : MCPToolParameter :=
  .mk "o" "object" "opaque" false none [] none none

theorem typeGenerator_spec_witness :
    paramToTsType enumParamW = "\x27fast\x27 | \x27slow\x27"
    ∧ paramToTsType strParamW = "string"
    ∧ paramToTsType numParamW = "number"
    ∧ paramToTsType boolParamW = "boolean"
    ∧ paramToTsType arrParamW = "Array<string>"
    ∧ paramToTsType arrNoneParamW = "unknown[]"
    ∧ paramToTsType objParamW = "\x7b q: string \x7d"
    ∧ paramToTsType objNoneParamW = "Record<string, unknown>" := by
  have h := typeGenerator_spec
  refine ⟨(h.2.1 enumParamW (by decide)).trans (by decide),
    h.2.2.1 strParamW rfl rfl,
    h.2.2.2.1 numParamW rfl rfl,
    h.2.2.2.2.1 boolParamW rfl rfl,
    (h.2.2.2.2.2.1 arrParamW strParamW rfl rfl rfl).trans ?_,
    h.2.2.2.2.2.2.1 arrNoneParamW rfl rfl rfl,
    (h.2.2.2.2.2.2.2.1 objParamW [("q", strParamW)] rfl rfl rfl).trans ?_,
    h.2.2.2.2.2.2.2.2 objNoneParamW rfl rfl rfl⟩
  · decide
  · decide
